import Mathlib

/-!
Verification of the pyckup resource-acquisition layer.

Two components are modelled, following the source:
* the protocol registry and resolver (pyckup/base.py, function grab), and
* the resilient dual-artifact OWID acquirer (pyckup/sources/owid.py,
  function acquire_owid_data).

Strings are modelled as lists of characters.  External effects (the injected
download capability, the archive member extraction, the filesystem) are
modelled by an explicit oracle that fixes the outcome of every injected call,
and by explicit state passing of the set of existing files; each run also
produces a trace of the injected calls that were made, so that claims about
which capabilities are invoked can be stated.
-/

namespace Pyckup

abbrev Str := List Char

/-- Word character of the regular-expression class in the pattern
protocol_sep_p (base.py line 11), restricted to ASCII: on ASCII characters
this agrees exactly with the source's Unicode-aware class (both accept
precisely a-z, A-Z, 0-9 and the underscore there), and every registered
scheme is ASCII.  Statements that quantify over arbitrary keys therefore
carry an explicit all-ASCII hypothesis on the key, confining them to the
domain where the embedding and the source engine coincide. -/
def wordChar (c : Char) : Bool := c.isAlphanum || c == '_'

/-- Longest run of word characters at the front of a string, together with
the remainder.  This is the unique way the scheme group of the pattern can
be chosen, since the characters of the separator are not word characters. -/
def wordSpan : Str → Str × Str
  | [] => ([], [])
  | c :: cs =>
    if wordChar c then
      let p := wordSpan cs
      (c :: p.1, p.2)
    else ([], c :: cs)

/-- Shallow embedding of matching the anchored pattern of base.py line 11
(a non-empty word-character group, the separator "://", then a group of one
or more characters other than a newline).  Returns the scheme group on
success.  The second group is never used by the source, so it is not
returned. -/
def protocolMatch (key : Str) : Option Str :=
  let ws := wordSpan key
  if ws.1 = [] then none
  else
    match ws.2 with
    | ':' :: '/' :: '/' :: r :: _ => if r = '\n' then none else some ws.1
    | _ => none

/-- Boolean test that the first argument occurs at the front of the second. -/
def startsWithB : Str → Str → Bool
  | [], _ => true
  | _ :: _, [] => false
  | a :: as, b :: bs => a == b && startsWithB as bs

/-- Substring containment, as the Python in operator on strings. -/
def containsSub (needle : Str) : Str → Bool
  | [] => startsWithB needle []
  | c :: cs => startsWithB needle (c :: cs) || containsSub needle cs

/-- What a call to grab does after dispatch: invoke a registered handler
(identified by a numeral) on a key, raise the KeyError for an unknown
scheme, or delegate to the generic object lookup get_obj. -/
inductive GrabAction where
  | callHandler (hid : Nat) (key : Str)
  | raiseUnrecognized (scheme : Str)
  | getObj (key : Str)
deriving DecidableEq, Repr

/-- The protocol registry as populated at import time (base.py lines 13-49):
file maps to the local file handler (numeral 0), kaggle to the kaggle
handler (1), and http and https both to the shared graze handler (2).
In the source the last three registrations are guarded by optional imports;
the fully populated registry described by the spec is modelled. -/
def protocols : List (Str × Nat) :=
  [("file".data, 0), ("kaggle".data, 1), ("http".data, 2), ("https".data, 2)]

/-- Leading path-separator normalization of grab (base.py lines 61-62). -/
def normalizeKey (key : Str) : Str :=
  if key.head? = some '/' ∨ key.head? = some '\\' then "file://".data ++ key
  else key

/-- Dispatch decision of grab on the already-normalized key
(base.py lines 63-73). -/
def grabCore (reg : List (Str × Nat)) (key : Str) : GrabAction :=
  if containsSub "://".data key then
    match protocolMatch key with
    | some w =>
      match reg.lookup w with
      | some hid => .callHandler hid key
      | none => .raiseUnrecognized w
    | none => .getObj key
  else .getObj key

/-- The call grab makes for a key, given the registry (base.py lines 52-73). -/
def grabAction (reg : List (Str × Nat)) (key : Str) : GrabAction :=
  grabCore reg (normalizeKey key)

/-- The value grab returns, given semantics for the handlers and for
get_obj; the error case is the KeyError raised on an unrecognized scheme,
carrying the scheme name. -/
def grabRun {α : Type} (reg : List (Str × Nat)) (handlers : Nat → Str → α)
    (gobj : Str → α) (key : Str) : Except Str α :=
  match grabAction reg key with
  | .callHandler hid k => .ok (handlers hid k)
  | .raiseUnrecognized w => .error w
  | .getObj k => .ok (gobj k)

/-! ### The OWID dual-artifact acquirer (pyckup/sources/owid.py)

The two artifacts of a slug are the tabular data file (csv) and the metadata
file (json).  The injected download capability, the archive opening, the
per-member extraction and the best-effort deletion are all modelled by an
oracle fixing the outcome of each injected call; the filesystem is the list
of existing file paths, threaded through the run together with a trace of
the network calls made. -/

/-- The two artifacts of a slug. -/
inductive Art where
  | csv
  | json
deriving DecidableEq, Repr

/-- Outcome of one call to the injected download capability
url_to_file_download: it returns the file path having materialized the file
(ok), returns a falsy value (retNone), returns the path without the file
existing (okNoFile), or raises with a message (raiseMsg). -/
inductive DlOutcome where
  | ok
  | retNone
  | okNoFile
  | raiseMsg (m : Str)
deriving DecidableEq, Repr

/-- Outcome of opening the archive or of extracting one member. -/
inductive ExtOutcome where
  | ok
  | raiseMsg (m : Str)
deriving DecidableEq, Repr

/-- Oracle fixing the outcome of every injected call: dl is the download
capability keyed by url, zipOpen is the opening of the downloaded archive,
extract the extraction of one member (keyed by artifact, since the in-archive
member names are derived from the slug), and unlinkOk whether the
best-effort deletion of the temporary archive succeeds. -/
structure Oracle where
  dl : Str → DlOutcome
  zipOpen : ExtOutcome
  extract : Art → ExtOutcome
  unlinkOk : Bool

/-- A network call made during a run: a direct download of one artifact, or
the archive download, tagged with the artifact whose direct failure
triggered it. -/
inductive Event where
  | directDl (a : Art)
  | zipDl (phase : Art)
deriving DecidableEq, Repr

/-- Run state: the existing files and the trace of network calls. -/
structure St where
  fs : List Str
  trace : List Event
deriving DecidableEq, Repr

def pathExists (fs : List Str) (p : Str) : Bool := fs.contains p

def insertPath (fs : List Str) (p : Str) : List Str :=
  if fs.contains p then fs else p :: fs

def removePath (fs : List Str) (p : Str) : List Str :=
  fs.filter (fun q => !(q == p))

/-- The on-disk cache directory for OWID downloads (owid.py line 28).  In
the source it is a platform-dependent application-data path; no claim
depends on its value, only on the distinctness of the derived cache paths,
which holds for any value. -/
def owid_downloads_dir_path : Str := "downloads/owid".data

/-- os.path.join with a relative second component. -/
def pathJoin (a b : Str) : Str := a ++ "/".data ++ b

def grapherBase (slug : Str) : Str :=
  "https://ourworldindata.org/grapher/".data ++ slug

def jsonUrl (slug : Str) : Str := grapherBase slug ++ ".metadata.json".data
def csvUrl (slug : Str) : Str := grapherBase slug ++ ".csv".data
def zipUrl (slug : Str) : Str := grapherBase slug ++ ".zip".data

def jsonFilePath (slug : Str) : Str :=
  pathJoin owid_downloads_dir_path (slug ++ ".metadata.json".data)
def csvFilePath (slug : Str) : Str :=
  pathJoin owid_downloads_dir_path (slug ++ ".csv".data)
def zipFilePath (slug : Str) : Str :=
  pathJoin owid_downloads_dir_path (slug ++ ".zip".data)

/-- slug_to_url_and_filename (owid.py lines 33-54).  The kind is a string,
as in the source; an unknown kind raises ValueError, modelled by the error
case. -/
def slug_to_url_and_filename (slug : Str) (kind : Str)
    (rootdir : Str := owid_downloads_dir_path) : Except Str (Str × Str) :=
  if kind = "json".data then
    .ok (jsonUrl slug, pathJoin rootdir (slug ++ ".metadata.json".data))
  else if kind = "csv".data then
    .ok (csvUrl slug, pathJoin rootdir (slug ++ ".csv".data))
  else if kind = "zip".data then
    .ok (zipUrl slug, pathJoin rootdir (slug ++ ".zip".data))
  else if kind = "html".data then
    .ok (grapherBase slug, pathJoin rootdir (slug ++ ".html".data))
  else .error ("Unknown kind: ".data ++ kind)

/-- _is_forbidden_error (owid.py lines 67-69). -/
def _is_forbidden_error (m : Str) : Bool :=
  containsSub "403".data m || containsSub "Forbidden".data m

/-- _is_non_redistributable (owid.py lines 71-74): case-insensitive
substring match (ASCII lowering, as the messages matched are ASCII). -/
def _is_non_redistributable (m : Str) : Bool :=
  let ml := m.map Char.toLower
  containsSub "non-redistributable".data ml ||
    containsSub "not allowed to re-share".data ml

/-- Best-effort deletion of the temporary archive, in the finally block of
_download_from_zip (owid.py lines 137-142): if the file exists it is
unlinked, and an unlink failure is swallowed. -/
def finallyUnlink (o : Oracle) (p : Str) (st : St) : St :=
  if pathExists st.fs p then
    if o.unlinkOk then { st with fs := removePath st.fs p } else st
  else st

/-- Extraction stage of the fallback (owid.py lines 110-144): open the
archive; on success try to extract each of the two members independently
(each writes its target file); each failure is isolated; then delete the
temporary archive best-effort.  Returns (csv_ok, json_ok, state). -/
def zipExtractStage (o : Oracle) (csv_path json_path tmp_zip_path : Str)
    (st : St) : Option Str × Option Str × St :=
  match o.zipOpen with
  | .raiseMsg _ => (none, none, finallyUnlink o tmp_zip_path st)
  | .ok =>
    let s1 : Option Str × St :=
      match o.extract .csv with
      | .ok => (some csv_path, { st with fs := insertPath st.fs csv_path })
      | .raiseMsg _ => (none, st)
    let s2 : Option Str × St :=
      match o.extract .json with
      | .ok => (some json_path, { s1.2 with fs := insertPath s1.2.fs json_path })
      | .raiseMsg _ => (none, s1.2)
    (s1.1, s2.1, finallyUnlink o tmp_zip_path s2.2)

/-- _download_from_zip (owid.py lines 76-144).  phase tags the trace with
the artifact whose direct failure triggered the fallback; attempted_zip is
the per-call fallback budget.  Returns (csv_ok, json_ok, attempted_zip,
state). -/
def _download_from_zip (o : Oracle) (refresh : Bool) (slug : Str)
    (csv_path json_path : Str) (phase : Art) (attempted_zip : Bool) (st : St) :
    Except Str (Option Str × Option Str × Bool × St) :=
  match slug_to_url_and_filename slug "zip".data with
  | .error e => .error e
  | .ok (zip_url, tmp_zip_path) =>
    if attempted_zip && !refresh then .ok (none, none, attempted_zip, st)
    else
      let st1 : St := { st with trace := st.trace ++ [Event.zipDl phase] }
      match o.dl zip_url with
      | .raiseMsg _ => .ok (none, none, true, st1)
      | .retNone => .ok (none, none, true, st1)
      | .okNoFile =>
        if pathExists st1.fs tmp_zip_path then
          let r := zipExtractStage o csv_path json_path tmp_zip_path st1
          .ok (r.1, r.2.1, true, r.2.2)
        else .ok (none, none, true, st1)
      | .ok =>
        let stf : St := { st1 with fs := insertPath st1.fs tmp_zip_path }
        let r := zipExtractStage o csv_path json_path tmp_zip_path stf
        .ok (r.1, r.2.1, true, r.2.2)

/-- CSV stage of acquire_owid_data (owid.py lines 149-191).  Returns
(csv_file, binding of the json_file_from_zip local: none when the name is
unbound, some v when bound to v, attempted_zip, state). -/
def csvStage (o : Oracle) (refresh : Bool) (slug : Str)
    (csv_url csv_path json_path : Str) (attempted_zip : Bool) (st : St) :
    Except Str (Option Str × Option (Option Str) × Bool × St) :=
  if pathExists st.fs csv_path && !refresh then
    .ok (some csv_path, none, attempted_zip, st)
  else
    let st1 : St := { st with trace := st.trace ++ [Event.directDl .csv] }
    match o.dl csv_url with
    | .ok =>
      .ok (some csv_path, none, attempted_zip,
        { st1 with fs := insertPath st1.fs csv_path })
    | .retNone => .ok (none, none, attempted_zip, st1)
    | .okNoFile =>
      if pathExists st1.fs csv_path then .ok (some csv_path, none, attempted_zip, st1)
      else .ok (none, none, attempted_zip, st1)
    | .raiseMsg m =>
      if _is_non_redistributable m then .ok (none, none, attempted_zip, st1)
      else if _is_forbidden_error m then
        if !attempted_zip then
          match _download_from_zip o refresh slug csv_path json_path .csv attempted_zip st1 with
          | .error e => .error e
          | .ok (c, j, att, st2) => .ok (c, some j, att, st2)
        else .ok (none, some none, attempted_zip, st1)
      else .ok (none, some none, attempted_zip, st1)

/-- Direct attempt of the JSON metadata stage (owid.py lines 200-236: the
try block around the metadata download).  The opportunistic chart-title read
(lines 211-219) only prints and never affects the result, so it is not
modelled.  Returns (json_file, state). -/
def jsonDirect (o : Oracle) (refresh : Bool) (slug : Str)
    (json_url csv_path json_path : Str) (attempted_zip : Bool) (st : St) :
    Except Str (Option Str × St) :=
  let st1 : St := { st with trace := st.trace ++ [Event.directDl .json] }
  match o.dl json_url with
  | .ok => .ok (some json_path, { st1 with fs := insertPath st1.fs json_path })
  | .retNone => .ok (none, st1)
  | .okNoFile =>
    if pathExists st1.fs json_path then .ok (some json_path, st1)
    else .ok (none, st1)
  | .raiseMsg m =>
    if _is_non_redistributable m then .ok (none, st1)
    else if _is_forbidden_error m && !attempted_zip then
      match _download_from_zip o refresh slug csv_path json_path .json attempted_zip st1 with
      | .error e => .error e
      | .ok (_, j, _, st2) => .ok (j, st2)
    else .ok (none, st1)

/-- JSON metadata stage of acquire_owid_data (owid.py lines 193-236): cache
check, then the json_file_from_zip binding if bound and truthy, then the
direct attempt.  Returns (json_file, state). -/
def jsonStage (o : Oracle) (refresh : Bool) (slug : Str)
    (json_url csv_path json_path : Str) (jfz : Option (Option Str))
    (attempted_zip : Bool) (st : St) : Except Str (Option Str × St) :=
  if pathExists st.fs json_path && !refresh then .ok (some json_path, st)
  else
    match jfz with
    | some (some p) => .ok (some p, st)
    | _ => jsonDirect o refresh slug json_url csv_path json_path attempted_zip st

/-- acquire_owid_data (owid.py lines 57-238), started on the given
filesystem with an empty trace.  Returns (json_file, csv_file, state),
matching the source's return order. -/
def acquire_owid_data (o : Oracle) (refresh : Bool) (slug : Str)
    (fs : List Str) : Except Str (Option Str × Option Str × St) :=
  match slug_to_url_and_filename slug "json".data with
  | .error e => .error e
  | .ok (json_url, json_path) =>
  match slug_to_url_and_filename slug "csv".data with
  | .error e => .error e
  | .ok (csv_url, csv_path) =>
  match csvStage o refresh slug csv_url csv_path json_path false { fs := fs, trace := [] } with
  | .error e => .error e
  | .ok (csv_file, jfz, att, st1) =>
  match jsonStage o refresh slug json_url csv_path json_path jfz att st1 with
  | .error e => .error e
  | .ok (json_file, st2) => .ok (json_file, csv_file, st2)

/-- Number of archive downloads in a trace. -/
def zipDlCount (tr : List Event) : Nat :=
  tr.countP (fun e => match e with | .zipDl _ => true | _ => false)

/-- The canonical direct-download url of an artifact. -/
def artUrl (slug : Str) : Art → Str
  | .csv => csvUrl slug
  | .json => jsonUrl slug

/-- The deterministic local cache path of an artifact. -/
def artFilePath (slug : Str) : Art → Str
  | .csv => csvFilePath slug
  | .json => jsonFilePath slug

/-- The component of the returned triple belonging to an artifact (the
source returns the metadata path first, the data path second). -/
def artComponent : Art → Option Str × Option Str × St → Option Str
  | .csv, out => out.2.1
  | .json, out => out.1

/-- An environment in which every download raises with the given message,
the archive (were it ever obtained) would open and extract fine, and
deletion succeeds. -/
def constRaiseOracle (m : Str) : Oracle :=
  { dl := fun _ => .raiseMsg m, zipOpen := .ok, extract := fun _ => .ok,
    unlinkOk := true }

/-- An environment in which every injected call succeeds. -/
def allOkOracle : Oracle :=
  { dl := fun _ => .ok, zipOpen := .ok, extract := fun _ => .ok,
    unlinkOk := true }

/-- The trace of the first of two consecutive acquirer calls for the same
slug with no filesystem change in between. -/
def firstCallTrace (o : Oracle) (slug : Str) (fs : List Str) : List Event :=
  match acquire_owid_data o false slug fs with
  | .error _ => []
  | .ok out1 => out1.2.2.trace

/-- The trace of the second of two consecutive acquirer calls for the same
slug, the second starting from the filesystem the first left behind. -/
def secondCallTrace (o : Oracle) (slug : Str) (fs : List Str) : List Event :=
  match acquire_owid_data o false slug fs with
  | .error _ => []
  | .ok out1 =>
    match acquire_owid_data o false slug out1.2.2.fs with
    | .error _ => []
    | .ok out2 => out2.2.2.trace

/-! ### Facts about the acquirer -/

lemma stuf_json (slug : Str) :
    slug_to_url_and_filename slug "json".data = .ok (jsonUrl slug, jsonFilePath slug) := rfl

lemma stuf_csv (slug : Str) :
    slug_to_url_and_filename slug "csv".data = .ok (csvUrl slug, csvFilePath slug) := rfl

lemma stuf_zip (slug : Str) :
    slug_to_url_and_filename slug "zip".data = .ok (zipUrl slug, zipFilePath slug) := rfl

lemma owidPath_inj {slug x y : Str}
    (h : pathJoin owid_downloads_dir_path (slug ++ x) =
      pathJoin owid_downloads_dir_path (slug ++ y)) : x = y :=
  List.append_cancel_left (List.append_cancel_left h)

lemma csv_ne_json (slug : Str) : csvFilePath slug ≠ jsonFilePath slug := by
  intro h
  exact absurd (owidPath_inj h) (by decide)

lemma zip_ne_csv (slug : Str) : zipFilePath slug ≠ csvFilePath slug := by
  intro h
  exact absurd (owidPath_inj h) (by decide)

lemma zip_ne_json (slug : Str) : zipFilePath slug ≠ jsonFilePath slug := by
  intro h
  exact absurd (owidPath_inj h) (by decide)

lemma pathExists_iff {fs : List Str} {p : Str} : pathExists fs p = true ↔ p ∈ fs := by
  simp [pathExists]

lemma pathExists_false_iff {fs : List Str} {p : Str} :
    pathExists fs p = false ↔ p ∉ fs := by
  rw [← Bool.not_eq_true, pathExists_iff]

lemma pathExists_insertPath_self (fs : List Str) (p : Str) :
    pathExists (insertPath fs p) p = true := by
  rw [pathExists_iff]
  unfold insertPath
  split
  · next h => exact pathExists_iff.mp h
  · simp

lemma pathExists_insertPath_of (fs : List Str) (p q : Str)
    (h : pathExists fs p = true) : pathExists (insertPath fs q) p = true := by
  rw [pathExists_iff] at *
  unfold insertPath
  split
  · exact h
  · simp [h]

lemma pathExists_insertPath_ne (fs : List Str) (p q : Str) (hne : p ≠ q)
    (h : pathExists fs p = false) : pathExists (insertPath fs q) p = false := by
  rw [pathExists_false_iff] at *
  unfold insertPath
  split
  · exact h
  · simp [hne, h]

lemma pathExists_removePath_of (fs : List Str) (p q : Str) (hne : p ≠ q)
    (h : pathExists fs p = true) : pathExists (removePath fs q) p = true := by
  rw [pathExists_iff] at *
  unfold removePath
  simp [List.mem_filter, h, hne]

lemma pathExists_removePath_false (fs : List Str) (p q : Str)
    (h : pathExists fs p = false) : pathExists (removePath fs q) p = false := by
  rw [pathExists_false_iff] at *
  unfold removePath
  simp only [List.mem_filter]
  intro hmem
  exact h hmem.1

lemma finallyUnlink_trace (o : Oracle) (p : Str) (st : St) :
    (finallyUnlink o p st).trace = st.trace := by
  unfold finallyUnlink
  split <;> [skip; rfl]
  split <;> rfl

lemma finallyUnlink_mem (o : Oracle) (p q : Str) (hne : q ≠ p)
    (st : St) (h : pathExists st.fs q = true) :
    pathExists (finallyUnlink o p st).fs q = true := by
  unfold finallyUnlink
  split
  · split
    · exact pathExists_removePath_of _ _ _ hne h
    · exact h
  · exact h

lemma finallyUnlink_not_mem (o : Oracle) (p q : Str)
    (st : St) (h : pathExists st.fs q = false) :
    pathExists (finallyUnlink o p st).fs q = false := by
  unfold finallyUnlink
  split
  · split
    · exact pathExists_removePath_false _ _ _ h
    · exact h
  · exact h

lemma pathExists_removePath_self (fs : List Str) (p : Str) :
    pathExists (removePath fs p) p = false := by
  rw [pathExists_false_iff]
  unfold removePath
  simp [List.mem_filter]

lemma zipDlCount_append (a b : List Event) :
    zipDlCount (a ++ b) = zipDlCount a + zipDlCount b :=
  List.countP_append _ a b

/-- Reduction of the fallback step with a fresh budget: the temporary-path
computation succeeds and the budget check passes, leaving the download and
extraction outcomes. -/
lemma dfz_red_false (o : Oracle) (r : Bool) (slug cp jp : Str) (phase : Art)
    (st : St) :
    _download_from_zip o r slug cp jp phase false st =
      (let st1 : St := { st with trace := st.trace ++ [Event.zipDl phase] }
       match o.dl (zipUrl slug) with
       | .raiseMsg _ => .ok (none, none, true, st1)
       | .retNone => .ok (none, none, true, st1)
       | .okNoFile =>
         if pathExists st1.fs (zipFilePath slug) then
           let r2 := zipExtractStage o cp jp (zipFilePath slug) st1
           .ok (r2.1, r2.2.1, true, r2.2.2)
         else .ok (none, none, true, st1)
       | .ok =>
         let stf : St := { st1 with fs := insertPath st1.fs (zipFilePath slug) }
         let r2 := zipExtractStage o cp jp (zipFilePath slug) stf
         .ok (r2.1, r2.2.1, true, r2.2.2)) := rfl

/-- Reduction of the fallback step with a consumed budget and no refresh:
nothing happens. -/
lemma dfz_red_budget (o : Oracle) (slug cp jp : Str) (phase : Art) (st : St) :
    _download_from_zip o false slug cp jp phase true st =
      .ok (none, none, true, st) := rfl

/-- The extraction stage does not touch the trace. -/
lemma zes_trace (o : Oracle) (cp jp zp : Str) (st : St) :
    (zipExtractStage o cp jp zp st).2.2.trace = st.trace := by
  unfold zipExtractStage
  cases o.zipOpen
  · cases o.extract .csv <;> cases o.extract .json <;> simp [finallyUnlink_trace]
  · simp [finallyUnlink_trace]

/-- The extraction stage preserves existing files other than the archive. -/
lemma zes_fs_of (o : Oracle) (cp jp zp : Str) (st : St) (p : Str) (hp : p ≠ zp)
    (h : pathExists st.fs p = true) :
    pathExists (zipExtractStage o cp jp zp st).2.2.fs p = true := by
  unfold zipExtractStage
  cases o.zipOpen
  · cases o.extract .csv <;> cases o.extract .json <;>
      simp only [] <;>
      exact finallyUnlink_mem o zp p hp _
        (by first
          | exact h
          | exact pathExists_insertPath_of _ _ _ h
          | exact pathExists_insertPath_of _ _ _ (pathExists_insertPath_of _ _ _ h))
  · exact finallyUnlink_mem o zp p hp _ h

/-- The extraction stage creates no file other than the two members. -/
lemma zes_fs_not (o : Oracle) (cp jp zp : Str) (st : St) (p : Str)
    (hcp : p ≠ cp) (hjp : p ≠ jp) (h : pathExists st.fs p = false) :
    pathExists (zipExtractStage o cp jp zp st).2.2.fs p = false := by
  unfold zipExtractStage
  cases o.zipOpen
  · cases o.extract .csv <;> cases o.extract .json <;>
      simp only [] <;>
      exact finallyUnlink_not_mem o zp p _
        (by first
          | exact h
          | exact pathExists_insertPath_ne _ _ _ hcp h
          | exact pathExists_insertPath_ne _ _ _ hjp h
          | exact pathExists_insertPath_ne _ _ _ hjp (pathExists_insertPath_ne _ _ _ hcp h))
  · exact finallyUnlink_not_mem o zp p _ h

/-- After the extraction stage, when deletion succeeds, the archive file is
gone on every exit path. -/
lemma zes_zip_removed (o : Oracle) (cp jp zp : Str) (st : St)
    (hunl : o.unlinkOk = true) (h : pathExists st.fs zp = true) :
    pathExists (zipExtractStage o cp jp zp st).2.2.fs zp = false := by
  have hfin : ∀ st' : St, pathExists st'.fs zp = true →
      pathExists (finallyUnlink o zp st').fs zp = false := by
    intro st' h'
    unfold finallyUnlink
    rw [if_pos h', if_pos hunl]
    exact pathExists_removePath_self _ _
  unfold zipExtractStage
  cases o.zipOpen
  · cases o.extract .csv <;> cases o.extract .json <;>
      simp only [] <;>
      exact hfin _
        (by first
          | exact h
          | exact pathExists_insertPath_of _ _ _ h
          | exact pathExists_insertPath_of _ _ _ (pathExists_insertPath_of _ _ _ h))
  · exact hfin _ h

/-- Reduction of the fallback step under a forced refresh: the budget check
is bypassed. -/
lemma dfz_red_refresh (o : Oracle) (slug cp jp : Str) (phase : Art)
    (att : Bool) (st : St) :
    _download_from_zip o true slug cp jp phase att st =
      (let st1 : St := { st with trace := st.trace ++ [Event.zipDl phase] }
       match o.dl (zipUrl slug) with
       | .raiseMsg _ => .ok (none, none, true, st1)
       | .retNone => .ok (none, none, true, st1)
       | .okNoFile =>
         if pathExists st1.fs (zipFilePath slug) then
           let r2 := zipExtractStage o cp jp (zipFilePath slug) st1
           .ok (r2.1, r2.2.1, true, r2.2.2)
         else .ok (none, none, true, st1)
       | .ok =>
         let stf : St := { st1 with fs := insertPath st1.fs (zipFilePath slug) }
         let r2 := zipExtractStage o cp jp (zipFilePath slug) stf
         .ok (r2.1, r2.2.1, true, r2.2.2)) := by
  cases att <;> rfl

/-- The fallback step never raises. -/
lemma dfz_ok_false (o : Oracle) (r : Bool) (slug cp jp : Str) (phase : Art)
    (st : St) :
    ∃ out, _download_from_zip o r slug cp jp phase false st = .ok out := by
  rw [dfz_red_false]
  cases o.dl (zipUrl slug)
  · exact ⟨_, rfl⟩
  · exact ⟨_, rfl⟩
  · by_cases hp : pathExists (st.fs) (zipFilePath slug) = true
    · simp only [hp]
      exact ⟨_, rfl⟩
    · simp only [Bool.not_eq_true] at hp
      simp only [hp]
      exact ⟨_, rfl⟩
  · exact ⟨_, rfl⟩

/-- With a fresh budget the fallback step consumes the budget and appends
exactly the one archive-download event to the trace. -/
lemma dfz_trace (o : Oracle) (r : Bool) (slug cp jp : Str) (phase : Art)
    (st : St) (out : Option Str × Option Str × Bool × St)
    (h : _download_from_zip o r slug cp jp phase false st = .ok out) :
    out.2.2.1 = true ∧ out.2.2.2.trace = st.trace ++ [Event.zipDl phase] := by
  rw [dfz_red_false] at h
  revert h
  cases o.dl (zipUrl slug) <;> intro h
  · cases h
    exact ⟨rfl, by rw [zes_trace]⟩
  · cases h
    exact ⟨rfl, rfl⟩
  · revert h
    by_cases hp : pathExists (st.fs) (zipFilePath slug) = true
    · simp only [hp]
      intro h
      cases h
      exact ⟨rfl, by rw [zes_trace]⟩
    · simp only [Bool.not_eq_true] at hp
      simp only [hp]
      intro h
      cases h
      exact ⟨rfl, rfl⟩
  · cases h
    exact ⟨rfl, rfl⟩

/-- The fallback step preserves existing files other than the archive. -/
lemma dfz_fs_of (o : Oracle) (r : Bool) (slug cp jp : Str) (phase : Art)
    (st : St) (out : Option Str × Option Str × Bool × St) (p : Str)
    (h : _download_from_zip o r slug cp jp phase false st = .ok out)
    (hp : p ≠ zipFilePath slug) (hmem : pathExists st.fs p = true) :
    pathExists out.2.2.2.fs p = true := by
  rw [dfz_red_false] at h
  revert h
  cases o.dl (zipUrl slug) <;> intro h
  · cases h
    exact zes_fs_of o cp jp _ _ p hp (pathExists_insertPath_of _ _ _ hmem)
  · cases h
    exact hmem
  · revert h
    by_cases hx : pathExists (st.fs) (zipFilePath slug) = true
    · simp only [hx]
      intro h
      cases h
      exact zes_fs_of o cp jp _ _ p hp hmem
    · simp only [Bool.not_eq_true] at hx
      simp only [hx]
      intro h
      cases h
      exact hmem
  · cases h
    exact hmem

/-- When the archive download itself raises, the fallback step yields no
artifact and leaves the filesystem unchanged. -/
lemma dfz_zipraise (o : Oracle) (r : Bool) (slug cp jp : Str) (phase : Art)
    (st : St) (mz : Str) (hz : o.dl (zipUrl slug) = .raiseMsg mz) :
    _download_from_zip o r slug cp jp phase false st =
      .ok (none, none, true, { st with trace := st.trace ++ [Event.zipDl phase] }) := by
  rw [dfz_red_false, hz]

/-- Cache short-circuit of the CSV stage: an existing file and no refresh
mean no call and the cached path. -/
lemma csvStage_cache (o : Oracle) (r : Bool) (slug cu cp jp : Str) (att : Bool)
    (st : St) (hc : (pathExists st.fs cp && !r) = true) :
    csvStage o r slug cu cp jp att st = .ok (some cp, none, att, st) := by
  unfold csvStage
  rw [if_pos hc]

/-- The CSV stage never raises. -/
lemma csvStage_ok (o : Oracle) (r : Bool) (slug cu cp jp : Str) (st : St) :
    ∃ out, csvStage o r slug cu cp jp false st = .ok out := by
  unfold csvStage
  by_cases hc : (pathExists st.fs cp && !r) = true
  · rw [if_pos hc]
    exact ⟨_, rfl⟩
  · rw [if_neg hc]
    cases o.dl cu
    · exact ⟨_, rfl⟩
    · exact ⟨_, rfl⟩
    · by_cases hx : pathExists st.fs cp = true
      · simp only [hx]
        exact ⟨_, rfl⟩
      · simp only [Bool.not_eq_true] at hx
        simp only [hx]
        exact ⟨_, rfl⟩
    · next m =>
      by_cases hnr : _is_non_redistributable m = true
      · simp only [hnr]
        exact ⟨_, rfl⟩
      · simp only [Bool.not_eq_true] at hnr
        simp only [hnr]
        by_cases hfb : _is_forbidden_error m = true
        · simp only [hfb]
          obtain ⟨out', hout'⟩ := dfz_ok_false o r slug cp jp .csv
            { st with trace := st.trace ++ [Event.directDl .csv] }
          simp only [Bool.not_false, if_true, hout']
          exact ⟨_, rfl⟩
        · simp only [Bool.not_eq_true] at hfb
          simp only [hfb]
          exact ⟨_, rfl⟩

/-- Trace growth of the CSV stage: only csv-phase events are appended, the
archive is downloaded at most once, and exactly once when the budget comes
out consumed. -/
lemma csvStage_trace (o : Oracle) (r : Bool) (slug cu cp jp : Str) (st : St)
    (out : Option Str × Option (Option Str) × Bool × St)
    (h : csvStage o r slug cu cp jp false st = .ok out) :
    ∃ Δ, out.2.2.2.trace = st.trace ++ Δ ∧
      (∀ e ∈ Δ, e = Event.directDl .csv ∨ e = Event.zipDl .csv) ∧
      zipDlCount Δ = (if out.2.2.1 then 1 else 0) := by
  unfold csvStage at h
  revert h
  by_cases hc : (pathExists st.fs cp && !r) = true
  · rw [if_pos hc]
    intro h
    cases h
    exact ⟨[], by simp, by simp, by simp [zipDlCount]⟩
  · rw [if_neg hc]
    cases hdl : o.dl cu <;> intro h
    · cases h
      exact ⟨[Event.directDl .csv], by simp, by simp, by simp [zipDlCount]⟩
    · cases h
      exact ⟨[Event.directDl .csv], by simp, by simp, by simp [zipDlCount]⟩
    · revert h
      by_cases hx : pathExists st.fs cp = true
      · simp only [hx]
        intro h
        cases h
        exact ⟨[Event.directDl .csv], by simp, by simp, by simp [zipDlCount]⟩
      · simp only [Bool.not_eq_true] at hx
        simp only [hx]
        intro h
        cases h
        exact ⟨[Event.directDl .csv], by simp, by simp, by simp [zipDlCount]⟩
    · next m =>
      revert h
      by_cases hnr : _is_non_redistributable m = true
      · simp only [hnr]
        intro h
        cases h
        exact ⟨[Event.directDl .csv], by simp, by simp, by simp [zipDlCount]⟩
      · simp only [Bool.not_eq_true] at hnr
        simp only [hnr]
        by_cases hfb : _is_forbidden_error m = true
        · simp only [hfb]
          obtain ⟨out', hout'⟩ := dfz_ok_false o r slug cp jp .csv
            { st with trace := st.trace ++ [Event.directDl .csv] }
          obtain ⟨hatt', htr'⟩ := dfz_trace o r slug cp jp .csv _ out' hout'
          simp only [Bool.not_false, if_true, hout']
          intro h
          cases h
          refine ⟨[Event.directDl .csv, Event.zipDl .csv], ?_, by simp, ?_⟩
          · simpa using htr'
          · simp [hatt', zipDlCount]
        · simp only [Bool.not_eq_true] at hfb
          simp only [hfb]
          intro h
          cases h
          exact ⟨[Event.directDl .csv], by simp, by simp, by simp [zipDlCount]⟩

/-- Non-redistributable direct failure in the CSV stage: the artifact is
given up without any fallback, and the only event is the direct call. -/
lemma csvStage_nonredist (o : Oracle) (r : Bool) (slug cu cp jp : Str)
    (att : Bool) (st : St) (m : Str)
    (hmiss : (pathExists st.fs cp && !r) = false)
    (hdl : o.dl cu = .raiseMsg m) (hnr : _is_non_redistributable m = true) :
    csvStage o r slug cu cp jp att st =
      .ok (none, none, att, { st with trace := st.trace ++ [Event.directDl .csv] }) := by
  unfold csvStage
  rw [hmiss]
  simp only [Bool.false_eq_true, if_false, hdl, hnr, if_true]

/-- When the archive download would raise, a direct-download failure in the
CSV stage leaves the csv artifact absent, binds json_file_from_zip to
nothing useful, and creates no file. -/
lemma csvStage_raise_zipraise (o : Oracle) (r : Bool) (slug cu cp jp : Str)
    (st : St) (m mz : Str)
    (hmiss : (pathExists st.fs cp && !r) = false)
    (hdl : o.dl cu = .raiseMsg m) (hz : o.dl (zipUrl slug) = .raiseMsg mz) :
    ∃ out, csvStage o r slug cu cp jp false st = .ok out ∧
      out.1 = none ∧ (out.2.1 = none ∨ out.2.1 = some none) ∧
      out.2.2.2.fs = st.fs := by
  unfold csvStage
  rw [hmiss]
  simp only [Bool.false_eq_true, if_false, hdl]
  by_cases hnr : _is_non_redistributable m = true
  · simp only [hnr, if_true]
    exact ⟨_, rfl, rfl, Or.inl rfl, rfl⟩
  · simp only [Bool.not_eq_true] at hnr
    simp only [hnr, Bool.false_eq_true, if_false]
    by_cases hfb : _is_forbidden_error m = true
    · simp only [hfb, if_true]
      rw [dfz_zipraise o r slug cp jp .csv _ mz hz]
      exact ⟨_, rfl, rfl, Or.inr rfl, rfl⟩
    · simp only [Bool.not_eq_true] at hfb
      simp only [hfb, Bool.false_eq_true, if_false]
      exact ⟨_, rfl, rfl, Or.inr rfl, rfl⟩

/-- The CSV stage preserves existing files other than the temporary
archive. -/
lemma csvStage_fs_of (o : Oracle) (r : Bool) (slug cu cp jp : Str) (st : St)
    (out : Option Str × Option (Option Str) × Bool × St) (p : Str)
    (h : csvStage o r slug cu cp jp false st = .ok out)
    (hp : p ≠ zipFilePath slug) (hmem : pathExists st.fs p = true) :
    pathExists out.2.2.2.fs p = true := by
  unfold csvStage at h
  revert h
  by_cases hc : (pathExists st.fs cp && !r) = true
  · rw [if_pos hc]
    intro h
    cases h
    exact hmem
  · rw [if_neg hc]
    cases hdl : o.dl cu <;> intro h
    · cases h
      exact pathExists_insertPath_of _ _ _ hmem
    · cases h
      exact hmem
    · revert h
      by_cases hx : pathExists st.fs cp = true
      · simp only [hx]
        intro h
        cases h
        exact hmem
      · simp only [Bool.not_eq_true] at hx
        simp only [hx]
        intro h
        cases h
        exact hmem
    · next m =>
      revert h
      by_cases hnr : _is_non_redistributable m = true
      · simp only [hnr]
        intro h
        cases h
        exact hmem
      · simp only [Bool.not_eq_true] at hnr
        simp only [hnr]
        by_cases hfb : _is_forbidden_error m = true
        · simp only [hfb]
          obtain ⟨out', hout'⟩ := dfz_ok_false o r slug cp jp .csv
            { st with trace := st.trace ++ [Event.directDl .csv] }
          simp only [Bool.not_false, if_true, hout']
          intro h
          cases h
          exact dfz_fs_of o r slug cp jp .csv _ out' p hout' hp hmem
        · simp only [Bool.not_eq_true] at hfb
          simp only [hfb]
          intro h
          cases h
          exact hmem

/-- When the archive download would raise, the CSV stage can neither bind a
usable json_file_from_zip nor create any file besides the csv target. -/
lemma csvStage_zipraise_general (o : Oracle) (r : Bool) (slug cu cp jp : Str)
    (st : St) (out : Option Str × Option (Option Str) × Bool × St) (mz : Str)
    (hz : o.dl (zipUrl slug) = .raiseMsg mz)
    (h : csvStage o r slug cu cp jp false st = .ok out) :
    (out.2.1 = none ∨ out.2.1 = some none) ∧
    (∀ p, p ≠ cp → pathExists st.fs p = false → pathExists out.2.2.2.fs p = false) := by
  unfold csvStage at h
  revert h
  by_cases hc : (pathExists st.fs cp && !r) = true
  · rw [if_pos hc]
    intro h
    cases h
    exact ⟨Or.inl rfl, fun p _ hp => hp⟩
  · rw [if_neg hc]
    cases hdl : o.dl cu <;> intro h
    · cases h
      exact ⟨Or.inl rfl, fun p hne hp => pathExists_insertPath_ne _ _ _ hne hp⟩
    · cases h
      exact ⟨Or.inl rfl, fun p _ hp => hp⟩
    · revert h
      by_cases hx : pathExists st.fs cp = true
      · simp only [hx]
        intro h
        cases h
        exact ⟨Or.inl rfl, fun p _ hp => hp⟩
      · simp only [Bool.not_eq_true] at hx
        simp only [hx]
        intro h
        cases h
        exact ⟨Or.inl rfl, fun p _ hp => hp⟩
    · next m =>
      revert h
      by_cases hnr : _is_non_redistributable m = true
      · simp only [hnr]
        intro h
        cases h
        exact ⟨Or.inl rfl, fun p _ hp => hp⟩
      · simp only [Bool.not_eq_true] at hnr
        simp only [hnr]
        by_cases hfb : _is_forbidden_error m = true
        · simp only [hfb]
          rw [dfz_zipraise o r slug cp jp .csv _ mz hz]
          intro h
          cases h
          exact ⟨Or.inr rfl, fun p _ hp => hp⟩
        · simp only [Bool.not_eq_true] at hfb
          simp only [hfb]
          intro h
          cases h
          exact ⟨Or.inr rfl, fun p _ hp => hp⟩

/-- Cache short-circuit of the JSON stage. -/
lemma jsonStage_cache (o : Oracle) (r : Bool) (slug ju cp jp : Str)
    (jfz : Option (Option Str)) (att : Bool) (st : St)
    (hc : (pathExists st.fs jp && !r) = true) :
    jsonStage o r slug ju cp jp jfz att st = .ok (some jp, st) := by
  unfold jsonStage
  rw [if_pos hc]

/-- The direct JSON attempt never raises. -/
lemma jsonDirect_ok (o : Oracle) (r : Bool) (slug ju cp jp : Str)
    (att : Bool) (st : St) :
    ∃ out, jsonDirect o r slug ju cp jp att st = .ok out := by
  unfold jsonDirect
  cases o.dl ju
  · exact ⟨_, rfl⟩
  · exact ⟨_, rfl⟩
  · by_cases hx : pathExists st.fs jp = true
    · simp only [hx]
      exact ⟨_, rfl⟩
    · simp only [Bool.not_eq_true] at hx
      simp only [hx]
      exact ⟨_, rfl⟩
  · next m =>
    by_cases hnr : _is_non_redistributable m = true
    · simp only [hnr]
      exact ⟨_, rfl⟩
    · simp only [Bool.not_eq_true] at hnr
      simp only [hnr]
      cases att
      · by_cases hfb : _is_forbidden_error m = true
        · simp only [hfb]
          obtain ⟨out', hout'⟩ := dfz_ok_false o r slug cp jp .json
            { st with trace := st.trace ++ [Event.directDl Art.json] }
          simp only [Bool.not_false, Bool.and_true, hout']
          exact ⟨_, rfl⟩
        · simp only [Bool.not_eq_true] at hfb
          simp only [hfb]
          exact ⟨_, rfl⟩
      · simp only [Bool.not_true, Bool.and_false, Bool.false_eq_true, if_false]
        exact ⟨_, rfl⟩

/-- The JSON stage never raises. -/
lemma jsonStage_ok (o : Oracle) (r : Bool) (slug ju cp jp : Str)
    (jfz : Option (Option Str)) (att : Bool) (st : St) :
    ∃ out, jsonStage o r slug ju cp jp jfz att st = .ok out := by
  unfold jsonStage
  by_cases hc : (pathExists st.fs jp && !r) = true
  · rw [if_pos hc]
    exact ⟨_, rfl⟩
  · rw [if_neg hc]
    cases jfz with
    | none => exact jsonDirect_ok o r slug ju cp jp att st
    | some v =>
      cases v with
      | none => exact jsonDirect_ok o r slug ju cp jp att st
      | some p => exact ⟨_, rfl⟩

/-- Trace growth of the direct JSON attempt: only json-phase events, with
the archive downloaded at most once and never when the budget is already
consumed. -/
lemma jsonDirect_trace (o : Oracle) (r : Bool) (slug ju cp jp : Str)
    (att : Bool) (st : St) (out : Option Str × St)
    (h : jsonDirect o r slug ju cp jp att st = .ok out) :
    ∃ Δ, out.2.trace = st.trace ++ Δ ∧
      (∀ e ∈ Δ, e = Event.directDl .json ∨ e = Event.zipDl .json) ∧
      zipDlCount Δ ≤ (if att then 0 else 1) := by
  have hone : zipDlCount [Event.directDl Art.json] = 0 := by simp [zipDlCount]
  unfold jsonDirect at h
  revert h
  cases hdl : o.dl ju <;> intro h
  · cases h
    exact ⟨[Event.directDl .json], by simp, by simp, by simp [hone]⟩
  · cases h
    exact ⟨[Event.directDl .json], by simp, by simp, by simp [hone]⟩
  · revert h
    by_cases hx : pathExists st.fs jp = true
    · simp only [hx]
      intro h
      cases h
      exact ⟨[Event.directDl .json], by simp, by simp, by simp [hone]⟩
    · simp only [Bool.not_eq_true] at hx
      simp only [hx]
      intro h
      cases h
      exact ⟨[Event.directDl .json], by simp, by simp, by simp [hone]⟩
  · next m =>
    revert h
    by_cases hnr : _is_non_redistributable m = true
    · simp only [hnr]
      intro h
      cases h
      exact ⟨[Event.directDl .json], by simp, by simp, by simp [hone]⟩
    · simp only [Bool.not_eq_true] at hnr
      simp only [hnr]
      cases att
      · by_cases hfb : _is_forbidden_error m = true
        · simp only [hfb]
          obtain ⟨out', hout'⟩ := dfz_ok_false o r slug cp jp .json
            { st with trace := st.trace ++ [Event.directDl Art.json] }
          obtain ⟨hatt', htr'⟩ := dfz_trace o r slug cp jp .json _ out' hout'
          simp only [Bool.not_false, Bool.and_true, hout']
          intro h
          cases h
          refine ⟨[Event.directDl .json, Event.zipDl .json], ?_, by simp, ?_⟩
          · simpa using htr'
          · simp [zipDlCount]
        · simp only [Bool.not_eq_true] at hfb
          simp only [hfb]
          intro h
          cases h
          exact ⟨[Event.directDl .json], by simp, by simp, by simp [hone]⟩
      · simp only [Bool.not_true, Bool.and_false, Bool.false_eq_true, if_false]
        intro h
        cases h
        exact ⟨[Event.directDl .json], by simp, by simp, by simp [hone]⟩

/-- Non-redistributable direct failure of the JSON metadata: absent result,
no fallback, only the direct call recorded. -/
lemma jsonDirect_nonredist (o : Oracle) (r : Bool) (slug ju cp jp : Str)
    (att : Bool) (st : St) (m : Str)
    (hdl : o.dl ju = .raiseMsg m) (hnr : _is_non_redistributable m = true) :
    jsonDirect o r slug ju cp jp att st =
      .ok (none, { st with trace := st.trace ++ [Event.directDl .json] }) := by
  unfold jsonDirect
  rw [hdl]
  simp only [hnr, if_true]

/-- When both the direct JSON download and the archive download would raise,
the direct JSON attempt yields nothing and creates no file. -/
lemma jsonDirect_raise_zipraise (o : Oracle) (r : Bool) (slug ju cp jp : Str)
    (att : Bool) (st : St) (m mz : Str)
    (hdl : o.dl ju = .raiseMsg m) (hz : o.dl (zipUrl slug) = .raiseMsg mz) :
    ∃ st', jsonDirect o r slug ju cp jp att st = .ok (none, st') := by
  unfold jsonDirect
  rw [hdl]
  by_cases hnr : _is_non_redistributable m = true
  · simp only [hnr, if_true]
    exact ⟨_, rfl⟩
  · simp only [Bool.not_eq_true] at hnr
    simp only [hnr, Bool.false_eq_true, if_false]
    cases att
    · by_cases hfb : _is_forbidden_error m = true
      · simp only [hfb, Bool.not_false, Bool.and_true, if_true]
        rw [dfz_zipraise o r slug cp jp .json _ mz hz]
        exact ⟨_, rfl⟩
      · simp only [Bool.not_eq_true] at hfb
        simp only [hfb, Bool.false_and, Bool.false_eq_true, if_false]
        exact ⟨_, rfl⟩
    · simp only [Bool.not_true, Bool.and_false, Bool.false_eq_true, if_false]
      exact ⟨_, rfl⟩

/-- Trace growth of the JSON stage. -/
lemma jsonStage_trace (o : Oracle) (r : Bool) (slug ju cp jp : Str)
    (jfz : Option (Option Str)) (att : Bool) (st : St) (out : Option Str × St)
    (h : jsonStage o r slug ju cp jp jfz att st = .ok out) :
    ∃ Δ, out.2.trace = st.trace ++ Δ ∧
      (∀ e ∈ Δ, e = Event.directDl .json ∨ e = Event.zipDl .json) ∧
      zipDlCount Δ ≤ (if att then 0 else 1) := by
  unfold jsonStage at h
  revert h
  by_cases hc : (pathExists st.fs jp && !r) = true
  · rw [if_pos hc]
    intro h
    cases h
    exact ⟨[], by simp, by simp, by simp [zipDlCount]⟩
  · rw [if_neg hc]
    cases jfz with
    | none => exact fun h => jsonDirect_trace o r slug ju cp jp att st out h
    | some v =>
      cases v with
      | none => exact fun h => jsonDirect_trace o r slug ju cp jp att st out h
      | some p =>
        intro h
        cases h
        exact ⟨[], by simp, by simp, by simp [zipDlCount]⟩

/-- Case analysis of the JSON stage: cache hit, use of the bound
json_file_from_zip, or the direct attempt. -/
lemma jsonStage_cases (o : Oracle) (r : Bool) (slug ju cp jp : Str)
    (jfz : Option (Option Str)) (att : Bool) (st : St) (out : Option Str × St)
    (h : jsonStage o r slug ju cp jp jfz att st = .ok out) :
    ((pathExists st.fs jp && !r) = true ∧ out = (some jp, st)) ∨
    ((pathExists st.fs jp && !r) = false ∧
      (∃ p, jfz = some (some p) ∧ out = (some p, st))) ∨
    ((pathExists st.fs jp && !r) = false ∧ (jfz = none ∨ jfz = some none) ∧
      jsonDirect o r slug ju cp jp att st = .ok out) := by
  unfold jsonStage at h
  revert h
  by_cases hc : (pathExists st.fs jp && !r) = true
  · rw [if_pos hc]
    intro h
    cases h
    exact Or.inl ⟨hc, rfl⟩
  · rw [if_neg hc]
    rw [Bool.not_eq_true] at hc
    cases jfz with
    | none => exact fun h => Or.inr (Or.inr ⟨hc, Or.inl rfl, h⟩)
    | some v =>
      cases v with
      | none => exact fun h => Or.inr (Or.inr ⟨hc, Or.inr rfl, h⟩)
      | some p =>
        intro h
        cases h
        exact Or.inr (Or.inl ⟨hc, p, rfl, rfl⟩)

/-- Reduction of the acquirer to its two stages. -/
lemma acquire_red (o : Oracle) (r : Bool) (slug : Str) (fs : List Str) :
    acquire_owid_data o r slug fs =
      (match csvStage o r slug (csvUrl slug) (csvFilePath slug) (jsonFilePath slug)
          false { fs := fs, trace := [] } with
       | .error e => .error e
       | .ok (csv_file, jfz, att, st1) =>
         match jsonStage o r slug (jsonUrl slug) (csvFilePath slug) (jsonFilePath slug)
             jfz att st1 with
         | .error e => .error e
         | .ok (json_file, st2) => .ok (json_file, csv_file, st2)) := rfl

/-- Decomposition of a successful acquirer run into its two stage runs. -/
lemma acquire_stages (o : Oracle) (r : Bool) (slug : Str) (fs : List Str)
    (out : Option Str × Option Str × St)
    (h : acquire_owid_data o r slug fs = .ok out) :
    ∃ c jfz att st1 j st2,
      csvStage o r slug (csvUrl slug) (csvFilePath slug) (jsonFilePath slug)
        false { fs := fs, trace := [] } = .ok (c, jfz, att, st1) ∧
      jsonStage o r slug (jsonUrl slug) (csvFilePath slug) (jsonFilePath slug)
        jfz att st1 = .ok (j, st2) ∧
      out = (j, c, st2) := by
  rw [acquire_red] at h
  obtain ⟨⟨c, jfz, att, st1⟩, h1⟩ :=
    csvStage_ok o r slug (csvUrl slug) (csvFilePath slug) (jsonFilePath slug)
      { fs := fs, trace := [] }
  rw [h1] at h
  dsimp only [] at h
  obtain ⟨⟨j, st2⟩, h2⟩ :=
    jsonStage_ok o r slug (jsonUrl slug) (csvFilePath slug) (jsonFilePath slug)
      jfz att st1
  rw [h2] at h
  dsimp only [] at h
  cases h
  exact ⟨c, jfz, att, st1, j, st2, h1, h2, rfl⟩

/-- The acquirer never raises. -/
lemma acquire_ok (o : Oracle) (r : Bool) (slug : Str) (fs : List Str) :
    ∃ out, acquire_owid_data o r slug fs = .ok out := by
  rw [acquire_red]
  obtain ⟨⟨c, jfz, att, st1⟩, h1⟩ :=
    csvStage_ok o r slug (csvUrl slug) (csvFilePath slug) (jsonFilePath slug)
      { fs := fs, trace := [] }
  rw [h1]
  dsimp only []
  obtain ⟨⟨j, st2⟩, h2⟩ :=
    jsonStage_ok o r slug (jsonUrl slug) (csvFilePath slug) (jsonFilePath slug)
      jfz att st1
  rw [h2]
  exact ⟨_, rfl⟩

/-- Across one whole acquirer call the archive is downloaded at most
once. -/
lemma acquire_zip_le_one (o : Oracle) (r : Bool) (slug : Str) (fs : List Str)
    (out : Option Str × Option Str × St)
    (h : acquire_owid_data o r slug fs = .ok out) :
    zipDlCount out.2.2.trace ≤ 1 := by
  obtain ⟨c, jfz, att, st1, j, st2, h1, h2, rfl⟩ := acquire_stages o r slug fs out h
  obtain ⟨Δ1, htr1, _, hcount1⟩ := csvStage_trace o r slug _ _ _ _ _ h1
  obtain ⟨Δ2, htr2, _, hcount2⟩ := jsonStage_trace o r slug _ _ _ jfz att _ _ h2
  simp only []
  rw [htr2, htr1]
  simp only [List.nil_append, zipDlCount_append]
  cases att
  · simp at hcount1 hcount2
    omega
  · simp at hcount1 hcount2
    omega

/-- C1: for every slug and every refresh value, acquire_owid_data returns a
pair (metadata path or absent, data path or absent) and never raises when
the injected download calls or the archive extraction fail for
remote/transport reasons (the oracle ranges over all outcomes, including
raising ones); and when the downloads serving an artifact all fail and the
artifact is not cached, that component of the pair is absent. -/
theorem c1_never_raises (o : Oracle) (r : Bool) (slug : Str) (fs : List Str) :
    (∃ out, acquire_owid_data o r slug fs = .ok out) ∧
    (∀ mc mz, o.dl (csvUrl slug) = .raiseMsg mc →
      o.dl (zipUrl slug) = .raiseMsg mz →
      pathExists fs (csvFilePath slug) = false →
      ∃ out, acquire_owid_data o r slug fs = .ok out ∧ out.2.1 = none) ∧
    (∀ mj mz, o.dl (jsonUrl slug) = .raiseMsg mj →
      o.dl (zipUrl slug) = .raiseMsg mz →
      pathExists fs (jsonFilePath slug) = false →
      ∃ out, acquire_owid_data o r slug fs = .ok out ∧ out.1 = none) := by
  refine ⟨acquire_ok o r slug fs, ?_, ?_⟩
  · intro mc mz hc hz hmiss
    have hmiss' : (pathExists ({ fs := fs, trace := [] } : St).fs (csvFilePath slug)
        && !r) = false := by simp [hmiss]
    obtain ⟨out1, h1, hc1, hjfz1, hfs1⟩ :=
      csvStage_raise_zipraise o r slug (csvUrl slug) (csvFilePath slug)
        (jsonFilePath slug) { fs := fs, trace := [] } mc mz hmiss' hc hz
    obtain ⟨c, jfz, att, st1⟩ := out1
    obtain ⟨⟨j, st2⟩, h2⟩ :=
      jsonStage_ok o r slug (jsonUrl slug) (csvFilePath slug) (jsonFilePath slug)
        jfz att st1
    refine ⟨(j, c, st2), ?_, hc1⟩
    rw [acquire_red, h1]
    dsimp only []
    rw [h2]
  · intro mj mz hj hz hmiss
    obtain ⟨⟨c, jfz, att, st1⟩, h1⟩ :=
      csvStage_ok o r slug (csvUrl slug) (csvFilePath slug) (jsonFilePath slug)
        { fs := fs, trace := [] }
    obtain ⟨hjfz, hfsn⟩ :=
      csvStage_zipraise_general o r slug (csvUrl slug) (csvFilePath slug)
        (jsonFilePath slug) { fs := fs, trace := [] } _ mz hz h1
    have hjp1 : pathExists st1.fs (jsonFilePath slug) = false :=
      hfsn (jsonFilePath slug) (Ne.symm (csv_ne_json slug)) hmiss
    obtain ⟨st', hdir⟩ :=
      jsonDirect_raise_zipraise o r slug (jsonUrl slug) (csvFilePath slug)
        (jsonFilePath slug) att st1 mj mz hj hz
    have h2 : jsonStage o r slug (jsonUrl slug) (csvFilePath slug)
        (jsonFilePath slug) jfz att st1 = .ok (none, st') := by
      unfold jsonStage
      rw [if_neg (by simp [hjp1])]
      rcases hjfz with rfl | rfl
      · exact hdir
      · exact hdir
    refine ⟨(none, c, st'), ?_, rfl⟩
    rw [acquire_red, h1]
    dsimp only []
    rw [h2]

theorem c1_witness :
    (constRaiseOracle "boom".data).dl (csvUrl "x".data) =
      DlOutcome.raiseMsg "boom".data ∧
    (constRaiseOracle "boom".data).dl (zipUrl "x".data) =
      DlOutcome.raiseMsg "boom".data ∧
    pathExists [] (csvFilePath "x".data) = false ∧
    (∃ out, acquire_owid_data (constRaiseOracle "boom".data) false "x".data [] =
       .ok out ∧ out.2.1 = none) :=
  ⟨rfl, rfl, by decide,
    (c1_never_raises (constRaiseOracle "boom".data) false "x".data []).2.1
      "boom".data "boom".data rfl rfl (by decide)⟩

/-- C2: for every slug, within a single call to acquire_owid_data, if both
direct downloads raise an access-forbidden error, the archive download is
invoked at most once, not twice.  (The bound holds in fact for every run.) -/
theorem c2_zip_fallback_once (o : Oracle) (r : Bool) (slug : Str)
    (fs : List Str) (m1 m2 : Str)
    (h1 : o.dl (csvUrl slug) = DlOutcome.raiseMsg m1)
    (hf1 : _is_forbidden_error m1 = true)
    (h2 : o.dl (jsonUrl slug) = DlOutcome.raiseMsg m2)
    (hf2 : _is_forbidden_error m2 = true) :
    ∃ out, acquire_owid_data o r slug fs = .ok out ∧
      zipDlCount out.2.2.trace ≤ 1 := by
  obtain ⟨out, hout⟩ := acquire_ok o r slug fs
  exact ⟨out, hout, acquire_zip_le_one o r slug fs out hout⟩

theorem c2_witness :
    (constRaiseOracle "HTTP 403 Forbidden".data).dl (csvUrl "x".data) =
      DlOutcome.raiseMsg "HTTP 403 Forbidden".data ∧
    (constRaiseOracle "HTTP 403 Forbidden".data).dl (jsonUrl "x".data) =
      DlOutcome.raiseMsg "HTTP 403 Forbidden".data ∧
    _is_forbidden_error "HTTP 403 Forbidden".data = true ∧
    (∃ out, acquire_owid_data (constRaiseOracle "HTTP 403 Forbidden".data)
        false "x".data [] = .ok out ∧ zipDlCount out.2.2.trace ≤ 1) :=
  ⟨rfl, rfl, by decide,
    c2_zip_fallback_once (constRaiseOracle "HTTP 403 Forbidden".data) false
      "x".data [] "HTTP 403 Forbidden".data "HTTP 403 Forbidden".data
      rfl (by decide) rfl (by decide)⟩

/-- C5: within one call to acquire_owid_data, if the direct download of an
artifact raises an error classified non-redistributable, the result for that
artifact is absent and the archive fallback is not invoked for that artifact
in that call. -/
theorem c5_non_redistributable (o : Oracle) (r : Bool) (slug : Str)
    (fs : List Str) (a : Art) (m : Str)
    (hdl : o.dl (artUrl slug a) = DlOutcome.raiseMsg m)
    (hnr : _is_non_redistributable m = true)
    (out : Option Str × Option Str × St)
    (hout : acquire_owid_data o r slug fs = .ok out)
    (hcall : Event.directDl a ∈ out.2.2.trace) :
    artComponent a out = none ∧ Event.zipDl a ∉ out.2.2.trace := by
  obtain ⟨c, jfz, att, st1, j, st2, h1, h2, rfl⟩ := acquire_stages o r slug fs out hout
  obtain ⟨Δ2, htr2, hev2, _⟩ := jsonStage_trace o r slug _ _ _ jfz att st1 _ h2
  cases a
  case csv =>
    by_cases hcc : (pathExists ({ fs := fs, trace := [] } : St).fs (csvFilePath slug)
        && !r) = true
    · have hcs := csvStage_cache o r slug (csvUrl slug) (csvFilePath slug)
        (jsonFilePath slug) false { fs := fs, trace := [] } hcc
      rw [hcs] at h1
      simp only [Except.ok.injEq, Prod.mk.injEq] at h1
      obtain ⟨-, -, -, h14⟩ := h1
      subst h14
      exfalso
      rw [htr2] at hcall
      dsimp only [List.nil_append] at hcall
      rcases hev2 _ hcall with he | he <;> exact absurd he (by decide)
    · simp only [Bool.not_eq_true] at hcc
      have hcs := csvStage_nonredist o r slug (csvUrl slug) (csvFilePath slug)
        (jsonFilePath slug) false { fs := fs, trace := [] } m hcc hdl hnr
      rw [hcs] at h1
      simp only [Except.ok.injEq, Prod.mk.injEq] at h1
      obtain ⟨e1, e2, e3, e4⟩ := h1
      subst e1
      subst e4
      refine ⟨rfl, ?_⟩
      rw [htr2]
      simp only [List.mem_append]
      rintro (hmem | hmem)
      · simp at hmem
      · rcases hev2 _ hmem with he | he <;> exact absurd he (by decide)
  case json =>
    obtain ⟨Δ1, htr1, hev1, _⟩ := csvStage_trace o r slug _ _ _ _ _ h1
    have hnotin1 : Event.directDl Art.json ∉ st1.trace := by
      rw [htr1]
      simp only [List.nil_append]
      intro hmem
      rcases hev1 _ hmem with he | he <;> exact absurd he (by decide)
    have hzipnotin1 : Event.zipDl Art.json ∉ st1.trace := by
      rw [htr1]
      simp only [List.nil_append]
      intro hmem
      rcases hev1 _ hmem with he | he <;> exact absurd he (by decide)
    rcases jsonStage_cases o r slug _ _ _ jfz att st1 _ h2 with
      ⟨hcond, hout2⟩ | ⟨hcond, p, hjfz, hout2⟩ | ⟨hcond, hjfz, hdir⟩
    · exfalso
      simp only [Prod.mk.injEq] at hout2
      obtain ⟨-, rfl⟩ := hout2
      exact hnotin1 hcall
    · exfalso
      simp only [Prod.mk.injEq] at hout2
      obtain ⟨-, rfl⟩ := hout2
      exact hnotin1 hcall
    · have hjd := jsonDirect_nonredist o r slug (jsonUrl slug) (csvFilePath slug)
        (jsonFilePath slug) att st1 m hdl hnr
      rw [hjd] at hdir
      simp only [Except.ok.injEq, Prod.mk.injEq] at hdir
      obtain ⟨e1, e2⟩ := hdir
      subst e1
      refine ⟨rfl, ?_⟩
      rw [← e2]
      simp only [List.mem_append]
      rintro (hmem | hmem)
      · exact hzipnotin1 hmem
      · simp at hmem

/-- C6: for each artifact independently, if the artifact's deterministic
local cache path exists and refresh is false, the acquirer makes no network
call for that artifact (neither the direct download nor an archive fallback
in its phase) and returns the existing cache path for it. -/
theorem c6_cache_short_circuit (o : Oracle) (slug : Str) (fs : List Str)
    (a : Art) (hc : pathExists fs (artFilePath slug a) = true) :
    ∃ out, acquire_owid_data o false slug fs = .ok out ∧
      artComponent a out = some (artFilePath slug a) ∧
      Event.directDl a ∉ out.2.2.trace ∧ Event.zipDl a ∉ out.2.2.trace := by
  cases a
  case csv =>
    have hc' : pathExists fs (csvFilePath slug) = true := hc
    have h1 := csvStage_cache o false slug (csvUrl slug) (csvFilePath slug)
      (jsonFilePath slug) false { fs := fs, trace := [] } (by simp [hc'])
    obtain ⟨⟨j, st2⟩, h2⟩ :=
      jsonStage_ok o false slug (jsonUrl slug) (csvFilePath slug)
        (jsonFilePath slug) none false { fs := fs, trace := [] }
    obtain ⟨Δ2, htr2, hev2, _⟩ := jsonStage_trace o false slug _ _ _ none false _ _ h2
    refine ⟨(j, some (csvFilePath slug), st2), ?_, rfl, ?_, ?_⟩
    · rw [acquire_red, h1]
      dsimp only []
      rw [h2]
    · rw [htr2]
      simp only [List.nil_append]
      intro hmem
      rcases hev2 _ hmem with he | he <;> exact absurd he (by decide)
    · rw [htr2]
      simp only [List.nil_append]
      intro hmem
      rcases hev2 _ hmem with he | he <;> exact absurd he (by decide)
  case json =>
    have hc' : pathExists fs (jsonFilePath slug) = true := hc
    obtain ⟨⟨c, jfz, att, st1⟩, h1⟩ :=
      csvStage_ok o false slug (csvUrl slug) (csvFilePath slug)
        (jsonFilePath slug) { fs := fs, trace := [] }
    have hjp1 : pathExists st1.fs (jsonFilePath slug) = true :=
      csvStage_fs_of o false slug (csvUrl slug) (csvFilePath slug)
        (jsonFilePath slug) { fs := fs, trace := [] } _ (jsonFilePath slug) h1
        (Ne.symm (zip_ne_json slug)) hc'
    have h2 := jsonStage_cache o false slug (jsonUrl slug) (csvFilePath slug)
      (jsonFilePath slug) jfz att st1 (by simp [hjp1])
    obtain ⟨Δ1, htr1, hev1, _⟩ := csvStage_trace o false slug _ _ _ _ _ h1
    refine ⟨(some (jsonFilePath slug), c, st1), ?_, rfl, ?_, ?_⟩
    · rw [acquire_red, h1]
      dsimp only []
      rw [h2]
    · rw [htr1]
      simp only [List.nil_append]
      intro hmem
      rcases hev1 _ hmem with he | he <;> exact absurd he (by decide)
    · rw [htr1]
      simp only [List.nil_append]
      intro hmem
      rcases hev1 _ hmem with he | he <;> exact absurd he (by decide)

theorem c5_witness :
    (constRaiseOracle "non-redistributable".data).dl (artUrl "x".data Art.json) =
      DlOutcome.raiseMsg "non-redistributable".data ∧
    _is_non_redistributable "non-redistributable".data = true ∧
    acquire_owid_data (constRaiseOracle "non-redistributable".data) false
        "x".data [] =
      .ok ((none, none,
        { fs := [], trace := [Event.directDl Art.csv, Event.directDl Art.json] })
          : Option Str × Option Str × St) ∧
    Event.directDl Art.json ∈
      ((none, none,
        { fs := [], trace := [Event.directDl Art.csv, Event.directDl Art.json] })
          : Option Str × Option Str × St).2.2.trace ∧
    (artComponent Art.json ((none, none,
        { fs := [], trace := [Event.directDl Art.csv, Event.directDl Art.json] })
          : Option Str × Option Str × St) = none ∧
      Event.zipDl Art.json ∉
        ((none, none,
          { fs := [], trace := [Event.directDl Art.csv, Event.directDl Art.json] })
            : Option Str × Option Str × St).2.2.trace) :=
  ⟨rfl, by decide, rfl, by decide,
    c5_non_redistributable (constRaiseOracle "non-redistributable".data) false
      "x".data [] Art.json "non-redistributable".data rfl (by decide)
      ((none, none,
        { fs := [], trace := [Event.directDl Art.csv, Event.directDl Art.json] })
          : Option Str × Option Str × St)
      rfl (by decide)⟩

theorem c6_witness :
    pathExists [csvFilePath "x".data] (artFilePath "x".data Art.csv) = true ∧
    (∃ out, acquire_owid_data allOkOracle false "x".data [csvFilePath "x".data] =
        .ok out ∧
      artComponent Art.csv out = some (artFilePath "x".data Art.csv) ∧
      Event.directDl Art.csv ∉ out.2.2.trace ∧
      Event.zipDl Art.csv ∉ out.2.2.trace) :=
  ⟨by decide,
    c6_cache_short_circuit allOkOracle "x".data [csvFilePath "x".data] Art.csv
      (by decide)⟩

/-- C8: whenever the archive fallback successfully downloads the zip file
and proceeds to the extraction phase (the budget check passes), on every
exit path of that phase — both members extracted, one or both extraction
failures, or an unreadable archive, all ranged over by the oracle — the
temporary zip file no longer exists when the fallback step returns, given
that the swallowed best-effort deletion itself succeeds. -/
theorem c8_tmp_zip_deleted (o : Oracle) (r : Bool) (slug : Str) (phase : Art)
    (att : Bool) (st : St)
    (hbudget : att = false ∨ r = true)
    (hdl : o.dl (zipUrl slug) = DlOutcome.ok)
    (hunl : o.unlinkOk = true) :
    ∃ out, _download_from_zip o r slug (csvFilePath slug) (jsonFilePath slug)
        phase att st = .ok out ∧
      pathExists out.2.2.2.fs (zipFilePath slug) = false := by
  rcases hbudget with rfl | rfl
  · rw [dfz_red_false, hdl]
    refine ⟨_, rfl, ?_⟩
    exact zes_zip_removed o _ _ _ _ hunl (pathExists_insertPath_self _ _)
  · rw [dfz_red_refresh, hdl]
    refine ⟨_, rfl, ?_⟩
    exact zes_zip_removed o _ _ _ _ hunl (pathExists_insertPath_self _ _)

theorem c8_witness :
    allOkOracle.dl (zipUrl "x".data) = DlOutcome.ok ∧
    allOkOracle.unlinkOk = true ∧
    (∃ out, _download_from_zip allOkOracle false "x".data
        (csvFilePath "x".data) (jsonFilePath "x".data) Art.csv false
        { fs := [], trace := [] } = .ok out ∧
      pathExists out.2.2.2.fs (zipFilePath "x".data) = false) :=
  ⟨rfl, rfl,
    c8_tmp_zip_deleted allOkOracle false "x".data Art.csv false
      { fs := [], trace := [] } (Or.inl rfl) rfl rfl⟩

/-- C9, counterexample: with every download raising a non-redistributable
error, the first call classifies the csv artifact non-redistributable, yet
a second call with refresh false and an unchanged filesystem re-attempts
the direct download of that artifact (the classification is not persisted
across calls). -/
theorem c9_counterexample :
    (constRaiseOracle "non-redistributable".data).dl (csvUrl "x".data) =
      DlOutcome.raiseMsg "non-redistributable".data ∧
    _is_non_redistributable "non-redistributable".data = true ∧
    Event.directDl Art.csv ∈
      firstCallTrace (constRaiseOracle "non-redistributable".data) "x".data [] ∧
    Event.directDl Art.csv ∈
      secondCallTrace (constRaiseOracle "non-redistributable".data) "x".data [] :=
  ⟨rfl, by decide, by decide, by decide⟩

/-- C9 (amended): the non-redistributable classification is scoped to a
single call.  If in one call an artifact's direct download was classified
non-redistributable (so that the artifact was not materialized), a second
call with the same slug and refresh false, with no filesystem changes in
between, re-attempts the direct download of that artifact. -/
theorem c9_reattempts (o : Oracle) (slug : Str) (fs : List Str) (m1 m2 : Str)
    (h1 : o.dl (csvUrl slug) = DlOutcome.raiseMsg m1)
    (hn1 : _is_non_redistributable m1 = true)
    (h2 : o.dl (jsonUrl slug) = DlOutcome.raiseMsg m2)
    (hn2 : _is_non_redistributable m2 = true)
    (hmiss : pathExists fs (csvFilePath slug) = false) :
    ∃ out1 out2,
      acquire_owid_data o false slug fs = .ok out1 ∧
      Event.directDl Art.csv ∈ out1.2.2.trace ∧ out1.2.1 = none ∧
      out1.2.2.fs = fs ∧
      acquire_owid_data o false slug out1.2.2.fs = .ok out2 ∧
      Event.directDl Art.csv ∈ out2.2.2.trace := by
  have hone : ∃ out, acquire_owid_data o false slug fs = .ok out ∧
      Event.directDl Art.csv ∈ out.2.2.trace ∧ out.2.1 = none ∧
      out.2.2.fs = fs := by
    have h1' : csvStage o false slug (csvUrl slug) (csvFilePath slug)
        (jsonFilePath slug) false { fs := fs, trace := [] } =
        .ok (none, none, false, { fs := fs, trace := [Event.directDl Art.csv] }) :=
      csvStage_nonredist o false slug (csvUrl slug) (csvFilePath slug)
        (jsonFilePath slug) false { fs := fs, trace := [] } m1
        (by simp [hmiss]) h1 hn1
    by_cases hjp : pathExists fs (jsonFilePath slug) = true
    · have h2' : jsonStage o false slug (jsonUrl slug) (csvFilePath slug)
          (jsonFilePath slug) none false
          { fs := fs, trace := [Event.directDl Art.csv] } =
          .ok (some (jsonFilePath slug),
            { fs := fs, trace := [Event.directDl Art.csv] }) :=
        jsonStage_cache o false slug (jsonUrl slug) (csvFilePath slug)
          (jsonFilePath slug) none false _ (by simp [pathExists] at hjp ⊢; exact hjp)
      refine ⟨(some (jsonFilePath slug), none,
        { fs := fs, trace := [Event.directDl Art.csv] }), ?_, by simp, rfl, rfl⟩
      rw [acquire_red, h1']
      dsimp only []
      rw [h2']
    · simp only [Bool.not_eq_true] at hjp
      have h2' : jsonStage o false slug (jsonUrl slug) (csvFilePath slug)
          (jsonFilePath slug) none false
          { fs := fs, trace := [Event.directDl Art.csv] } =
          .ok (none,
            { fs := fs,
              trace := [Event.directDl Art.csv, Event.directDl Art.json] }) := by
        unfold jsonStage
        rw [if_neg (by simp [pathExists] at hjp ⊢; simp [hjp])]
        exact jsonDirect_nonredist o false slug (jsonUrl slug) (csvFilePath slug)
          (jsonFilePath slug) false _ m2 h2 hn2
      refine ⟨(none, none,
        { fs := fs,
          trace := [Event.directDl Art.csv, Event.directDl Art.json] }),
        ?_, by simp, rfl, rfl⟩
      rw [acquire_red, h1']
      dsimp only []
      rw [h2']
  obtain ⟨out, hout, hmem, hcnone, hfs⟩ := hone
  refine ⟨out, out, hout, hmem, hcnone, hfs, ?_, hmem⟩
  rw [hfs]
  exact hout

theorem c9_witness :
    (constRaiseOracle "non-redistributable".data).dl (csvUrl "y".data) =
      DlOutcome.raiseMsg "non-redistributable".data ∧
    (constRaiseOracle "non-redistributable".data).dl (jsonUrl "y".data) =
      DlOutcome.raiseMsg "non-redistributable".data ∧
    _is_non_redistributable "non-redistributable".data = true ∧
    pathExists [] (csvFilePath "y".data) = false ∧
    (∃ out1 out2,
      acquire_owid_data (constRaiseOracle "non-redistributable".data) false
        "y".data [] = .ok out1 ∧
      Event.directDl Art.csv ∈ out1.2.2.trace ∧ out1.2.1 = none ∧
      out1.2.2.fs = [] ∧
      acquire_owid_data (constRaiseOracle "non-redistributable".data) false
        "y".data out1.2.2.fs = .ok out2 ∧
      Event.directDl Art.csv ∈ out2.2.2.trace) :=
  ⟨rfl, rfl, by decide, by decide,
    c9_reattempts (constRaiseOracle "non-redistributable".data) "y".data []
      "non-redistributable".data "non-redistributable".data rfl (by decide)
      rfl (by decide) (by decide)⟩

/-! ### Facts about the resolver -/

lemma sep_data : "://".data = [':', '/', '/'] := rfl

lemma fileSep_data : "file://".data = ['f', 'i', 'l', 'e', ':', '/', '/'] := rfl

lemma wordChar_ne_sep {c : Char} (h : wordChar c = true) : c ≠ '/' ∧ c ≠ '\\' := by
  constructor <;> rintro rfl <;> exact absurd h (by decide)

lemma wordSpan_append_sep (s t : Str) (hw : ∀ c ∈ s, wordChar c = true) :
    wordSpan (s ++ ':' :: t) = (s, ':' :: t) := by
  induction s with
  | nil => simp [wordSpan]; decide
  | cons c cs ih =>
    have hc : wordChar c = true := hw c (by simp)
    have ih' := ih (fun d hd => hw d (by simp [hd]))
    simp [wordSpan, hc, List.append_eq, ih']

lemma startsWithB_self_append (n t : Str) : startsWithB n (n ++ t) = true := by
  induction n with
  | nil => simp [startsWithB]
  | cons c cs ih => simp [startsWithB, ih]

lemma containsSub_of_startsWithB {n h : Str} (hs : startsWithB n h = true) :
    containsSub n h = true := by
  cases h with
  | nil => simpa [containsSub] using hs
  | cons c cs => simp [containsSub, hs]

lemma containsSub_append_left {n t : Str} (p : Str) (h : containsSub n t = true) :
    containsSub n (p ++ t) = true := by
  induction p with
  | nil => simpa using h
  | cons c cs ih => simp [containsSub, ih]

lemma protocolMatch_scheme (s : Str) (r : Char) (rs : Str) (hs : s ≠ [])
    (hw : ∀ c ∈ s, wordChar c = true) (hr : r ≠ '\n') :
    protocolMatch (s ++ "://".data ++ r :: rs) = some s := by
  have hspan : wordSpan (s ++ ':' :: '/' :: '/' :: r :: rs) = (s, ':' :: '/' :: '/' :: r :: rs) :=
    wordSpan_append_sep s ('/' :: '/' :: r :: rs) hw
  simp only [sep_data, List.cons_append, List.nil_append]
  simp [protocolMatch, hspan, hs, hr]

lemma normalizeKey_of_wordChar {c : Char} (t : Str) (hc : wordChar c = true) :
    normalizeKey (c :: t) = c :: t := by
  obtain ⟨h1, h2⟩ := wordChar_ne_sep hc
  simp [normalizeKey, h1, h2]

lemma grabAction_scheme (reg : List (Str × Nat)) (s : Str) (r : Char) (rs : Str)
    (hs : s ≠ []) (hw : ∀ c ∈ s, wordChar c = true) (hr : r ≠ '\n') :
    grabAction reg (s ++ "://".data ++ r :: rs) =
      match reg.lookup s with
      | some hid => .callHandler hid (s ++ "://".data ++ r :: rs)
      | none => .raiseUnrecognized s := by
  obtain ⟨c, s', rfl⟩ : ∃ c s', s = c :: s' := by
    cases s with
    | nil => exact absurd rfl hs
    | cons c s' => exact ⟨c, s', rfl⟩
  have hnorm : normalizeKey ((c :: s') ++ "://".data ++ r :: rs) =
      (c :: s') ++ "://".data ++ r :: rs := by
    have := normalizeKey_of_wordChar (s' ++ "://".data ++ r :: rs) (hw c (by simp))
    simpa using this
  have hcontains : containsSub "://".data ((c :: s') ++ "://".data ++ r :: rs) = true := by
    simpa using containsSub_append_left (c :: s')
      (containsSub_of_startsWithB (startsWithB_self_append ("://".data) (r :: rs)))
  have hmatch := protocolMatch_scheme (c :: s') r rs hs hw hr
  simp only [grabAction, hnorm, grabCore, hcontains, if_pos, hmatch]

/-- The registered schemes are non-empty strings of word characters. -/
lemma protocols_wordChar {s : Str} {hid : Nat} (h : protocols.lookup s = some hid) :
    s ≠ [] ∧ ∀ c ∈ s, wordChar c = true := by
  simp only [protocols, List.lookup] at h
  rcases h1 : s == "file".data with _ | _
  · rcases h2 : s == "kaggle".data with _ | _
    · rcases h3 : s == "http".data with _ | _
      · rcases h4 : s == "https".data with _ | _
        · rw [h1, h2, h3, h4] at h; simp at h
        · obtain rfl := eq_of_beq h4; exact ⟨by decide, by decide⟩
      · obtain rfl := eq_of_beq h3; exact ⟨by decide, by decide⟩
    · obtain rfl := eq_of_beq h2; exact ⟨by decide, by decide⟩
  · obtain rfl := eq_of_beq h1; exact ⟨by decide, by decide⟩

/-- C3, counterexample: "file" is registered, the rest string "\n" is
non-empty, yet grab on "file://\n" does not invoke the handler: the pattern
of base.py line 11 rejects a rest starting with a newline, so the key is
delegated to get_obj instead. -/
theorem c3_counterexample :
    protocols.lookup "file".data = some 0 ∧ "\n".data ≠ [] ∧
    grabAction protocols ("file".data ++ "://".data ++ "\n".data) =
      GrabAction.getObj "file://\n".data := by decide

/-- C3 (amended): for every scheme s registered in the protocol registry with
handler h and every non-empty rest string whose first character is not a
newline, resolving s ++ "://" ++ rest invokes exactly the handler h, with the
full key per the handler's prefix-stripping convention, and returns h's
result unchanged. -/
theorem c3_registered_scheme_dispatch (s : Str) (hid : Nat) (r : Char) (rs : Str)
    {α : Type} (handlers : Nat → Str → α) (gobj : Str → α)
    (hlook : protocols.lookup s = some hid) (hr : r ≠ '\n') :
    grabAction protocols (s ++ "://".data ++ r :: rs) =
      GrabAction.callHandler hid (s ++ "://".data ++ r :: rs) ∧
    grabRun protocols handlers gobj (s ++ "://".data ++ r :: rs) =
      Except.ok (handlers hid (s ++ "://".data ++ r :: rs)) := by
  obtain ⟨hs, hw⟩ := protocols_wordChar hlook
  have h0 := grabAction_scheme protocols s r rs hs hw hr
  rw [hlook] at h0
  have h : grabAction protocols (s ++ "://".data ++ r :: rs) =
      GrabAction.callHandler hid (s ++ "://".data ++ r :: rs) := h0
  refine ⟨h, ?_⟩
  unfold grabRun
  rw [h]

theorem c3_witness :
    protocols.lookup "http".data = some 2 ∧ 'x' ≠ '\n' ∧
    (grabAction protocols ("http".data ++ "://".data ++ 'x' :: []) =
        GrabAction.callHandler 2 ("http".data ++ "://".data ++ 'x' :: []) ∧
      grabRun protocols (fun hid k => (hid, k)) (fun k => (0, k))
          ("http".data ++ "://".data ++ 'x' :: []) =
        Except.ok (2, "http".data ++ "://".data ++ 'x' :: [])) :=
  ⟨by decide, by decide,
    c3_registered_scheme_dispatch "http".data 2 'x' []
      (fun hid k => (hid, k)) (fun k => (0, k)) (by decide) (by decide)⟩

/-- C4, counterexample: "zzz" is a scheme-shaped token absent from the
registry, and the key "zzz://" (empty rest) is of the form z ++ "://" ++
rest; yet grab does not raise the unrecognized-scheme KeyError: the pattern
requires a non-empty remainder, so the raw key is delegated to get_obj. -/
theorem c4_counterexample :
    protocols.lookup "zzz".data = none ∧ (∀ c ∈ "zzz".data, wordChar c = true) ∧
    grabAction protocols ("zzz".data ++ "://".data ++ []) =
      GrabAction.getObj "zzz://".data := by decide

/-- C4 (amended): for every key z ++ "://" ++ rest where z is a scheme-shaped
(non-empty, word-characters-only) token not present in the registry and rest
is non-empty with a first character that is not a newline, grab raises the
unrecognized-scheme KeyError carrying the scheme name, and neither a handler
nor the generic object lookup is invoked. -/
theorem c4_unrecognized_scheme (z : Str) (r : Char) (rs : Str)
    {α : Type} (handlers : Nat → Str → α) (gobj : Str → α)
    (hz : z ≠ []) (hw : ∀ c ∈ z, wordChar c = true)
    (hlook : protocols.lookup z = none) (hr : r ≠ '\n') :
    grabAction protocols (z ++ "://".data ++ r :: rs) = GrabAction.raiseUnrecognized z ∧
    grabRun protocols handlers gobj (z ++ "://".data ++ r :: rs) = Except.error z := by
  have h0 := grabAction_scheme protocols z r rs hz hw hr
  rw [hlook] at h0
  have h : grabAction protocols (z ++ "://".data ++ r :: rs) =
      GrabAction.raiseUnrecognized z := h0
  refine ⟨h, ?_⟩
  unfold grabRun
  rw [h]

theorem c4_witness :
    "zzz".data ≠ ([] : Str) ∧ (∀ c ∈ "zzz".data, wordChar c = true) ∧
    protocols.lookup "zzz".data = none ∧ 'x' ≠ '\n' ∧
    (grabAction protocols ("zzz".data ++ "://".data ++ 'x' :: []) =
        GrabAction.raiseUnrecognized "zzz".data ∧
      grabRun protocols (fun hid k => (hid, k)) (fun k => (0, k))
          ("zzz".data ++ "://".data ++ 'x' :: []) = Except.error "zzz".data) :=
  ⟨by decide, by decide, by decide, by decide,
    c4_unrecognized_scheme "zzz".data 'x' []
      (fun hid k => (hid, k)) (fun k => (0, k)) (by decide) (by decide)
      (by decide) (by decide)⟩

/-- C7: for every key beginning with a path separator, grab behaves
identically to grab of the key with the local-file prefix prepended: the same
dispatch action is taken (same handler, same argument, same failure), and the
returned value is the same. -/
theorem c7_separator_normalization (reg : List (Str × Nat)) (key : Str)
    {α : Type} (handlers : Nat → Str → α) (gobj : Str → α)
    (h : key.head? = some '/' ∨ key.head? = some '\\') :
    grabAction reg key = grabAction reg ("file://".data ++ key) ∧
    grabRun reg handlers gobj key =
      grabRun reg handlers gobj ("file://".data ++ key) := by
  have h1 : normalizeKey key = "file://".data ++ key := by
    unfold normalizeKey; rw [if_pos h]
  have h2 : normalizeKey ("file://".data ++ key) = "file://".data ++ key := by
    simp [normalizeKey, fileSep_data]
  have ha : grabAction reg key = grabAction reg ("file://".data ++ key) := by
    unfold grabAction
    rw [h1, h2]
  refine ⟨ha, ?_⟩
  unfold grabRun
  rw [ha]

theorem c7_witness :
    (("/tmp/a".data : Str).head? = some '/' ∨ ("/tmp/a".data : Str).head? = some '\\') ∧
    (grabAction protocols "/tmp/a".data =
        grabAction protocols ("file://".data ++ "/tmp/a".data) ∧
      grabRun protocols (fun hid k => (hid, k)) (fun k => (0, k)) "/tmp/a".data =
        grabRun protocols (fun hid k => (hid, k)) (fun k => (0, k))
          ("file://".data ++ "/tmp/a".data)) :=
  ⟨Or.inl (by decide),
    c7_separator_normalization protocols "/tmp/a".data
      (fun hid k => (hid, k)) (fun k => (0, k)) (Or.inl (by decide))⟩

/-- C10, counterexample: the key "/a://b" contains "://" and does not match
the scheme pattern (it starts with a path separator, not a word character),
yet grab does not delegate it to get_obj: the separator normalization
rewrites it to "file:///a://b", which dispatches to the file handler. -/
theorem c10_counterexample :
    containsSub "://".data "/a://b".data = true ∧
    protocolMatch "/a://b".data = none ∧
    grabAction protocols "/a://b".data ≠ GrabAction.getObj "/a://b".data ∧
    grabAction protocols "/a://b".data =
      GrabAction.callHandler 0 ("file://".data ++ "/a://b".data) := by decide

/-- C10 (amended): for every ASCII key that does not begin with a path
separator, contains the substring "://", and does not match the pattern
word-characters-only scheme followed by "://" followed by a non-empty
remainder, grab does not raise the unrecognized-scheme error and instead
delegates the raw key to the generic object-lookup capability, returning its
result.  (The all-ASCII hypothesis confines the statement to the keys on
which the embedded pattern provably coincides with the source's
Unicode-aware word-character class, so the no-match hypothesis means
exactly that the source pattern does not match either.) -/
theorem c10_no_match_get_obj (key : Str)
    {α : Type} (handlers : Nat → Str → α) (gobj : Str → α)
    (hascii : ∀ c ∈ key, c.toNat < 128)
    (h1 : key.head? ≠ some '/') (h2 : key.head? ≠ some '\\')
    (h3 : containsSub "://".data key = true)
    (h4 : protocolMatch key = none) :
    grabAction protocols key = GrabAction.getObj key ∧
    grabRun protocols handlers gobj key = Except.ok (gobj key) := by
  have hn : normalizeKey key = key := by
    unfold normalizeKey; rw [if_neg (not_or.mpr ⟨h1, h2⟩)]
  have ha : grabAction protocols key = GrabAction.getObj key := by
    unfold grabAction
    rw [hn]
    unfold grabCore
    rw [h3, h4]
    simp
  refine ⟨ha, ?_⟩
  unfold grabRun
  rw [ha]

theorem c10_witness :
    (∀ c ∈ "a-b://x".data, c.toNat < 128) ∧
    (("a-b://x".data : Str).head? ≠ some '/') ∧
    (("a-b://x".data : Str).head? ≠ some '\\') ∧
    containsSub "://".data "a-b://x".data = true ∧
    protocolMatch "a-b://x".data = none ∧
    (grabAction protocols "a-b://x".data = GrabAction.getObj "a-b://x".data ∧
      grabRun protocols (fun hid k => (hid, k)) (fun k => (0, k)) "a-b://x".data =
        Except.ok (0, "a-b://x".data)) :=
  ⟨by decide, by decide, by decide, by decide, by decide,
    c10_no_match_get_obj "a-b://x".data (fun hid k => (hid, k)) (fun k => (0, k))
      (by decide) (by decide) (by decide) (by decide) (by decide)⟩

end Pyckup
